import Mathlib

/-!
Verification of `a_unet/blocks.py`: the template engine, block combinators,
classifier-free guidance plugin, resampling blocks, attention forward and the
tabular embedding generator, shallowly embedded as pure Lean functions.

Conventions: a block's forward is a Lean function; the primary signal and the
auxiliary argument tuple are type parameters; float scalars are modelled as
rationals; code that can raise (index errors, failed asserts) returns Option.
-/

namespace AUnet

/-! ## Template engine (`class T`, blocks.py lines 17-38)

Python keyword-argument dicts are modelled as association lists over an
arbitrary decidable key type; `dictMerge ka kb` models the dict literal built
from ka updated by kb (kb wins on key collision, ka's insertion order kept).
-/

/-- First-match lookup in an association list, modelling Python dict access. -/
def lookup {κ α : Type} [DecidableEq κ] (k : κ) : List (κ × α) → Option α
  | [] => none
  | (k', v) :: rest => if k = k' then some v else lookup k rest

/-- Python dict merge of two dicts: ka's keys first with values overridden by
kb where present, then kb's keys that are new. -/
def dictMerge {κ α : Type} [DecidableEq κ] (ka kb : List (κ × α)) : List (κ × α) :=
  ka.map (fun p => (p.1, (lookup p.1 kb).getD p.2))
    ++ kb.filter (fun p => (lookup p.1 ka).isNone)

/-- The template class `T` of blocks.py: a wrapped constructor `t` (taking a
positional-argument list and a keyword dict) plus the `override` flag. -/
structure T (α κ β : Type) where
  t : List α → List (κ × α) → β
  override : Bool

/-- Calling `T(t, override)(*a, **ka)(*b, **kb)`: the `Inner.__call__` of
blocks.py lines 32-36, which invokes `t(*(*a, *b), **{**ka, **kb})` when
`override` and `t(*(*b, *a), **{**kb, **ka})` otherwise. -/
def T.call {α κ β : Type} [DecidableEq κ] (self : T α κ β)
    (a : List α) (ka : List (κ × α)) (b : List α) (kb : List (κ × α)) : β :=
  if self.override then self.t (a ++ b) (dictMerge ka kb)
  else self.t (b ++ a) (dictMerge kb ka)

theorem lookup_append {κ α : Type} [DecidableEq κ] (k : κ) (l1 l2 : List (κ × α)) :
    lookup k (l1 ++ l2) = (lookup k l1).orElse (fun _ => lookup k l2) := by
  induction l1 with
  | nil => simp [lookup]
  | cons p rest ih =>
    obtain ⟨k', v⟩ := p
    by_cases h : k = k' <;> simp [lookup, h, ih]

theorem lookup_map_override {κ α : Type} [DecidableEq κ] (k : κ) (ka kb : List (κ × α)) :
    lookup k (ka.map fun p => (p.1, (lookup p.1 kb).getD p.2))
      = (lookup k ka).map (fun v => (lookup k kb).getD v) := by
  induction ka with
  | nil => simp [lookup]
  | cons p rest ih =>
    obtain ⟨k', v⟩ := p
    by_cases h : k = k'
    · subst h; simp [lookup, ih]
    · simp [lookup, h, ih]

theorem lookup_filter_not_mem {κ α : Type} [DecidableEq κ] (k : κ) (ka kb : List (κ × α))
    (h : lookup k ka = none) :
    lookup k (kb.filter fun p => (lookup p.1 ka).isNone) = lookup k kb := by
  induction kb with
  | nil => simp
  | cons p rest ih =>
    obtain ⟨k', v⟩ := p
    by_cases hk : k = k'
    · subst hk
      simp [List.filter_cons, h, lookup]
    · by_cases hkeep : (lookup k' ka).isNone
      · simp [List.filter_cons, hkeep, lookup, hk, ih]
      · simp [List.filter_cons, hkeep, lookup, hk, ih]

theorem lookup_dictMerge {κ α : Type} [DecidableEq κ] (k : κ) (ka kb : List (κ × α)) :
    lookup k (dictMerge ka kb) = (lookup k kb).orElse (fun _ => lookup k ka) := by
  unfold dictMerge
  rw [lookup_append, lookup_map_override]
  cases hka : lookup k ka with
  | none =>
    rw [lookup_filter_not_mem k ka kb hka]
    cases lookup k kb <;> simp
  | some v =>
    cases hkb : lookup k kb <;> simp [hkb]

/-- C1: a template in override mode satisfies
`T(f)(a, ka)(b, kb) = f(a ++ b, merge of ka and kb with kb winning on key
collision)` (captured positional args precede extra ones), and in non-override
mode `T(f, override := false)(a, ka)(b, kb) = f(b ++ a, merge of kb and ka
with ka winning on key collision)`. -/
theorem template_call_merge {α κ β : Type} [DecidableEq κ]
    (f : List α → List (κ × α) → β) (a b : List α) (ka kb : List (κ × α)) :
    (T.call ⟨f, true⟩ a ka b kb = f (a ++ b) (dictMerge ka kb)
      ∧ ∀ k, lookup k (dictMerge ka kb) = (lookup k kb).orElse (fun _ => lookup k ka))
    ∧ (T.call ⟨f, false⟩ a ka b kb = f (b ++ a) (dictMerge kb ka)
      ∧ ∀ k, lookup k (dictMerge kb ka) = (lookup k ka).orElse (fun _ => lookup k kb)) := by
  refine ⟨⟨rfl, fun k => lookup_dictMerge k ka kb⟩, ⟨rfl, fun k => lookup_dictMerge k kb ka⟩⟩

/-- Witness for C1 at a concrete constructor and colliding keyword key. -/
theorem template_call_merge_witness :
    (T.call ⟨(fun p kw => (p, lookup 0 kw)), true⟩ [1] [(0, 10)] [2] [(0, 20)]
        = ([1, 2], some 20))
    ∧ (T.call ⟨(fun p kw => (p, lookup 0 kw)), false⟩ [1] [(0, 10)] [2] [(0, 20)]
        = ([2, 1], some 10)) := by
  have h := template_call_merge (κ := ℕ) (fun p kw => (p, lookup 0 kw))
    [1] [2] [(0, 10)] [(0, 20)]
  refine ⟨?_, ?_⟩
  · rw [h.1.1]; rfl
  · rw [h.2.1]; rfl

/-! ## Sequential combinator (blocks.py lines 68-78)

A child block is a function of the primary signal and the auxiliary argument
tuple; `Sequential.forward` is the loop `for block in self.blocks: x = block(x, *args)`. -/

/-- The forward loop of the custom `Sequential`. -/
def Sequential.forward {X A : Type} (blocks : List (X → A → X)) (x : X) (args : A) : X :=
  blocks.foldl (fun x block => block x args) x

/-- The specification-side nested application
`childN(...(child1(x, *aux), *aux)..., *aux)`: compose the children in order,
handing every one the same auxiliary tuple. -/
def chainApply {X A : Type} (blocks : List (X → A → X)) (args : A) : X → X :=
  blocks.foldr (fun block rest => fun x => rest (block x args)) id

/-- C4: the Sequential forward equals the nested application of the children in
order, each child receiving the identical, unmodified auxiliary tuple. -/
theorem sequential_forward_chain {X A : Type}
    (blocks : List (X → A → X)) (x : X) (args : A) :
    Sequential.forward blocks x args = chainApply blocks args x := by
  induction blocks generalizing x with
  | nil => rfl
  | cons b rest ih =>
    simp only [Sequential.forward, List.foldl_cons, chainApply, List.foldr_cons]
    exact ih (b x args)

/-- Witness for C4 on a concrete 3-child chain over ℤ with aux argument 10. -/
theorem sequential_forward_chain_witness :
    Sequential.forward [fun x (a : ℤ) => x + a, fun x a => x * a, fun x a => x - a]
        (1 : ℤ) 10
      = chainApply [fun x (a : ℤ) => x + a, fun x a => x * a, fun x a => x - a] 10 1 :=
  sequential_forward_chain _ 1 10

/-! ## Skip combinator (blocks.py lines 116-124) -/

/-- Forward of the `Skip`-generated class: `merge_fn(x, super().forward(x, *args))`. -/
def Skip.forward {X A : Type} (merge : X → X → X)
    (blocks : List (X → A → X)) (x : X) (args : A) : X :=
  merge x (Sequential.forward blocks x args)

/-- C5: a skip block returns `mergeFn(x, chain(x, *aux))`; with `mergeFn = add`
and a chain that outputs zero, the output is `x` itself. -/
theorem skip_forward_merge {X A : Type} (merge : X → X → X)
    (blocks : List (X → A → X)) (x : X) (args : A) :
    Skip.forward merge blocks x args = merge x (Sequential.forward blocks x args)
    ∧ ∀ (bz : List (ℤ → A → ℤ)) (xz : ℤ) (az : A),
        Sequential.forward bz xz az = 0 →
        Skip.forward (fun p q => p + q) bz xz az = xz := by
  refine ⟨rfl, fun bz xz az hz => ?_⟩
  simp [Skip.forward, hz]

/-- Witness for C5: an all-zero chain under additive merge is the identity. -/
theorem skip_forward_merge_witness :
    Skip.forward (fun p q => p + q) [fun _ (_ : ℤ) => (0 : ℤ)] 5 3 = 5 :=
  (skip_forward_merge (fun p q => p + q) [fun _ (_ : ℤ) => (0 : ℤ)] (5 : ℤ) (3 : ℤ)).2
    [fun _ _ => 0] 5 3 rfl

/-! ## Classifier-free guidance plugin (blocks.py lines 504-556)

The base network is a function of the primary signal and a batch of per-item
embeddings; its scalar output is a rational. `FixedEmbedding` applied to the
input embedding depends only on the input's shape — it is the positional table
broadcast over the batch — so the fixed unconditional embedding is modelled as
one value `fixedEmb` repeated per batch item. The Bernoulli draw of
`rand_bool` is modelled by an explicit oracle consulted only when
`0 < proba < 1`, exactly as blocks.py lines 504-510 special-case 0 and 1.
`cfgForward` additionally reports how many times the base network was
evaluated. -/

/-- `rand_bool(shape, proba)` per batch item: all-true at proba 1, all-false at
proba 0, otherwise the Bernoulli sample (the oracle). -/
def rand_bool {B : Type} (proba : ℚ) (oracle : B → Bool) : B → Bool :=
  if proba = 1 then fun _ => true
  else if proba = 0 then fun _ => false
  else oracle

/-- The (possibly masked) embedding of blocks.py lines 538-543:
`torch.where(batch_mask, embedding_mask, embedding)` when
`embedding_mask_proba > 0`, the unchanged embedding otherwise. -/
def cfgMaskedEmbedding {B E : Type} (fixedEmb : E) (embedding : B → E)
    (embedding_mask_proba : ℚ) (oracle : B → Bool) : B → E :=
  if embedding_mask_proba > 0 then
    fun i => if rand_bool embedding_mask_proba oracle i then fixedEmb else embedding i
  else embedding

/-- The forward of the module built by `ClassifierFreeGuidancePlugin`
(blocks.py lines 526-552), paired with the number of base-network
evaluations. -/
def cfgForward {X B E : Type} (net : X → (B → E) → ℚ) (fixedEmb : E) (x : X)
    (embedding : B → E) (embedding_scale embedding_mask_proba : ℚ)
    (oracle : B → Bool) : ℚ × ℕ :=
  let embedding := cfgMaskedEmbedding fixedEmb embedding embedding_mask_proba oracle
  let embedding_mask : B → E := fun _ => fixedEmb
  if embedding_scale ≠ 1 then
    let out := net x embedding
    let out_masked := net x embedding_mask
    (out_masked + (out - out_masked) * embedding_scale, 2)
  else (net x embedding, 1)

/-- C2: with `embedding_scale = 1` the output is one single evaluation of the
base network at the (possibly masked) embedding; with
`embedding_mask_proba = 1` the masked embedding is the fixed unconditional one
and the output is the base network at the fixed embedding regardless of scale;
with `embedding_scale ≠ 1` the output is
`out_masked + (out - out_masked) * embedding_scale` from two evaluations. -/
theorem cfg_forward_spec {X B E : Type} (net : X → (B → E) → ℚ) (fixedEmb : E)
    (x : X) (embedding : B → E) (embedding_scale embedding_mask_proba : ℚ)
    (oracle : B → Bool) :
    (embedding_scale = 1 →
      cfgForward net fixedEmb x embedding embedding_scale embedding_mask_proba oracle
        = (net x (cfgMaskedEmbedding fixedEmb embedding embedding_mask_proba oracle), 1))
    ∧ (embedding_mask_proba = 1 →
      cfgMaskedEmbedding fixedEmb embedding embedding_mask_proba oracle = (fun _ => fixedEmb)
      ∧ (cfgForward net fixedEmb x embedding embedding_scale embedding_mask_proba
          oracle).1 = net x (fun _ => fixedEmb))
    ∧ (embedding_scale ≠ 1 →
      cfgForward net fixedEmb x embedding embedding_scale embedding_mask_proba oracle
        = (net x (fun _ => fixedEmb)
            + (net x (cfgMaskedEmbedding fixedEmb embedding embedding_mask_proba oracle)
                - net x (fun _ => fixedEmb)) * embedding_scale, 2)) := by
  refine ⟨fun hs => ?_, fun hp => ?_, fun hs => ?_⟩
  · simp [cfgForward, hs]
  · have hmask : cfgMaskedEmbedding fixedEmb embedding embedding_mask_proba oracle
        = (fun _ => fixedEmb) := by
      funext i
      simp [cfgMaskedEmbedding, hp, rand_bool]
    refine ⟨hmask, ?_⟩
    by_cases hs : embedding_scale = 1
    · simp [cfgForward, hs, hmask]
    · simp only [cfgForward, hmask, if_pos hs]
      ring
  · simp [cfgForward, hs]

/-- Concrete base network for the C2 witness. -/
def cfgNetEx : ℤ → (Unit → ℤ) → ℚ := fun x e => (x : ℚ) + (e () : ℚ)

/-- Witness for C2 at a concrete network (fixed embedding 7, real embedding 3):
single evaluation at scale 1, fixed embedding at mask probability 1, and the
guidance extrapolation at scale 2. -/
theorem cfg_forward_spec_witness :
    (cfgForward cfgNetEx 7 5 (fun _ => 3) 1 (1 / 2) (fun _ => false)
      = (cfgNetEx 5 (cfgMaskedEmbedding 7 (fun _ => 3) (1 / 2) (fun _ => false)), 1))
    ∧ (cfgForward cfgNetEx 7 5 (fun _ => 3) 2 1 (fun _ => false)).1
        = cfgNetEx 5 (fun _ => 7)
    ∧ cfgForward cfgNetEx 7 5 (fun _ => 3) 2 0 (fun _ => false)
        = (cfgNetEx 5 (fun _ => 7)
            + (cfgNetEx 5 (cfgMaskedEmbedding 7 (fun _ => 3) 0 (fun _ => false))
                - cfgNetEx 5 (fun _ => 7)) * 2, 2) := by
  refine ⟨?_, ?_, ?_⟩
  · exact (cfg_forward_spec cfgNetEx 7 5 (fun _ => 3) 1 (1 / 2) (fun _ => false)).1 rfl
  · exact ((cfg_forward_spec cfgNetEx 7 5 (fun _ => 3) 2 1 (fun _ => false)).2.1 rfl).2
  · exact (cfg_forward_spec cfgNetEx 7 5 (fun _ => 3) 2 0 (fun _ => false)).2.2 (by norm_num)

/-! ## Convolution selection and resampling (blocks.py lines 132-170)

`Conv`/`ConvTranspose` index `[nn.Conv1d, nn.Conv2d, nn.Conv3d][dim - 1]`; the
chosen layer is recorded as a `ConvSpec`. Python list indexing (negative
indices wrap once from the end, out-of-range raises) is modelled by `pyGet`,
and Python's floor division `//` by `Int.fdiv`. -/

/-- Python list indexing: nonnegative indices from the front, negative indices
from the end, out-of-range is an IndexError. -/
def pyGet {α : Type} (l : List α) (i : ℤ) : Option α :=
  if 0 ≤ i then l.get? i.toNat
  else if (l.length : ℤ) + i < 0 then none
  else l.get? ((l.length : ℤ) + i).toNat

/-- The convolution layer produced by `Conv`/`ConvTranspose`: its
dimensionality, whether it is transposed, and the geometry arguments. -/
structure ConvSpec where
  nd : ℕ
  transposed : Bool
  kernel_size : ℤ
  stride : ℤ
  padding : ℤ
deriving DecidableEq

/-- `Conv(dim, ...)` of blocks.py lines 132-133. -/
def Conv (dim : ℕ) (kernel_size stride padding : ℤ) : Option ConvSpec :=
  (pyGet [1, 2, 3] ((dim : ℤ) - 1)).map fun nd =>
    { nd := nd, transposed := false, kernel_size := kernel_size,
      stride := stride, padding := padding }

/-- `ConvTranspose(dim, ...)` of blocks.py lines 136-139. -/
def ConvTranspose (dim : ℕ) (kernel_size stride padding : ℤ) : Option ConvSpec :=
  (pyGet [1, 2, 3] ((dim : ℤ) - 1)).map fun nd =>
    { nd := nd, transposed := true, kernel_size := kernel_size,
      stride := stride, padding := padding }

/-- `Downsample` of blocks.py lines 142-152: width forced to 1 unless
`factor > 1`, kernel `factor * width`, stride `factor`, padding
`(factor * width - factor) // 2`. -/
def Downsample (dim : ℕ) (factor : ℕ := 2) (width : ℕ := 1) : Option ConvSpec :=
  let width := if factor > 1 then width else 1
  Conv dim ((factor : ℤ) * width) factor (((factor : ℤ) * width - factor).fdiv 2)

/-- `Upsample` of blocks.py lines 155-170: same geometry with a transposed
convolution. -/
def Upsample (dim : ℕ) (factor : ℕ := 2) (width : ℕ := 1) : Option ConvSpec :=
  let width := if factor > 1 then width else 1
  ConvTranspose dim ((factor : ℤ) * width) factor (((factor : ℤ) * width - factor).fdiv 2)

/-- C9: for ranks 1-3 and positive factor and width, `Downsample` builds a
convolution and `Upsample` a transposed convolution with kernel
`factor * width`, stride `factor` and padding `(factor * width - factor) / 2`
(integer division), where the width is forced to 1 exactly when the factor
is 1. -/
theorem downsample_upsample_geometry (dim factor width : ℕ)
    (hdim : dim = 1 ∨ dim = 2 ∨ dim = 3) (hf : 0 < factor) (hw : 0 < width) :
    Downsample dim factor width
        = some { nd := dim, transposed := false,
                 kernel_size := (factor : ℤ) * (if factor = 1 then 1 else width),
                 stride := factor,
                 padding := ((factor : ℤ) * (if factor = 1 then 1 else width)
                              - factor).fdiv 2 }
    ∧ Upsample dim factor width
        = some { nd := dim, transposed := true,
                 kernel_size := (factor : ℤ) * (if factor = 1 then 1 else width),
                 stride := factor,
                 padding := ((factor : ℤ) * (if factor = 1 then 1 else width)
                              - factor).fdiv 2 } := by
  have hwidth : (if factor > 1 then width else 1) = (if factor = 1 then 1 else width) := by
    by_cases h1 : factor = 1
    · simp [h1]
    · have : factor > 1 := by omega
      simp [this, h1]
  have hget : pyGet [1, 2, 3] ((dim : ℤ) - 1) = some dim := by
    rcases hdim with h | h | h <;> subst h <;> rfl
  constructor
  · simp only [Downsample, Conv, hwidth, hget]; rfl
  · simp only [Upsample, ConvTranspose, hwidth, hget]; rfl

/-- Witness for C9: factor 2 width 1 gives kernel 2 padding 0; factor 2
width 2 gives kernel 4 padding 1 (2D downsampling). -/
theorem downsample_upsample_geometry_witness :
    Downsample 2 2 1 = some { nd := 2, transposed := false, kernel_size := 2,
                              stride := 2, padding := 0 }
    ∧ Downsample 2 2 2 = some { nd := 2, transposed := false, kernel_size := 4,
                                stride := 2, padding := 1 } := by
  constructor
  · have h := (downsample_upsample_geometry 2 2 1 (Or.inr (Or.inl rfl))
      (by norm_num) (by norm_num)).1
    rw [h]; rfl
  · have h := (downsample_upsample_geometry 2 2 2 (Or.inr (Or.inl rfl))
      (by norm_num) (by norm_num)).1
    rw [h]; rfl

/-! ## Attention forward (blocks.py lines 334-384)

The learned sub-modules of `Attention.__init__` (positional embedding,
LayerNorms, q/kv projections and the attention base, whose forward ends in the
`to_out` output projection) are abstract functions over one signal type; the
forward method is translated line by line. Python's truthiness test
`not self.context_features` is false for `None` and for `0`. -/

/-- An `Attention` module: the configuration and learned sub-modules its
forward reads. `to_kv` returns the two chunks k, v of the joint projection. -/
structure Attention (X : Type) where
  context_features : Option ℕ
  use_positional_embedding : Bool
  positional_embedding : X → X
  norm : X → X
  norm_context : X → X
  to_q : X → X
  to_kv : X → X × X
  attention : X → X → X → X

/-- Python truthiness of the optional `context_features` field. -/
def optNatTruthy : Option ℕ → Bool
  | none => false
  | some n => decide (n ≠ 0)

/-- The query input of `Attention.forward`: the primary signal with the
positional embedding added when configured
(`x = x + self.positional_embedding(x)`). -/
def attnInput {X : Type} [Add X] (m : Attention X) (x : X) : X :=
  if m.use_positional_embedding then x + m.positional_embedding x else x

/-- The context actually used by `Attention.forward`:
`context if exists(context) and self.use_context else x`, where
`use_context = exists(context_features)` and `x` is the (possibly
positionally-embedded) query input. -/
def attnContext {X : Type} [Add X] (m : Attention X) (x : X)
    (context : Option X) : X :=
  match context with
  | some c => if m.context_features.isSome then c else attnInput m x
  | none => attnInput m x

/-- `Attention.forward` (blocks.py lines 372-384): assert a context exists when
`context_features` is truthy, keep the unnormalized input as `skip`, optionally
add the positional embedding, default the context to the current signal, apply
the norms and projections, and return `skip + attention(q, k, v)`. -/
def Attention.forward {X : Type} [Add X] (m : Attention X) (x : X)
    (context : Option X) : Option X :=
  if optNatTruthy m.context_features && context.isNone then none
  else
    let skip := x
    let x1 := attnInput m x
    let ctx := attnContext m x context
    let xn := m.norm x1
    let ctxn := m.norm_context ctx
    let q := m.to_q xn
    let kv := m.to_kv ctxn
    some (skip + m.attention q kv.1 kv.2)

/-- C10: whenever the forward's context assertion passes, the output is the
unnormalized input `x` plus the (output-projected) attention value, whose
query/key/value are computed from the positionally-embedded and normalized
signals — the residual is taken before positional embedding and
normalization. -/
theorem attention_forward_residual {X : Type} [Add X] (m : Attention X) (x : X)
    (context : Option X)
    (h : optNatTruthy m.context_features = true → context.isSome) :
    Attention.forward m x context
      = some (x + m.attention
          (m.to_q (m.norm (attnInput m x)))
          (m.to_kv (m.norm_context (attnContext m x context))).1
          (m.to_kv (m.norm_context (attnContext m x context))).2) := by
  have hcond : (optNatTruthy m.context_features && context.isNone) = false := by
    cases ht : optNatTruthy m.context_features
    · simp
    · have hsome := h ht
      cases context with
      | none => simp at hsome
      | some c => rfl
  simp only [Attention.forward, hcond, Bool.false_eq_true, if_false]

/-- Concrete cross-attention module over ℤ for the C10 witness. -/
def attnEx : Attention ℤ :=
  { context_features := some 1
    use_positional_embedding := true
    positional_embedding := fun v => v + 1
    norm := fun v => 2 * v
    norm_context := fun v => 3 * v
    to_q := fun v => v - 1
    to_kv := fun v => (v, v + 2)
    attention := fun q k v => q + k + v }

/-- Witness for C10 at a concrete module, input 4 and context 2. -/
theorem attention_forward_residual_witness :
    Attention.forward attnEx 4 (some 2)
      = some (4 + attnEx.attention
          (attnEx.to_q (attnEx.norm (attnInput attnEx 4)))
          (attnEx.to_kv (attnEx.norm_context (attnContext attnEx 4 (some 2)))).1
          (attnEx.to_kv (attnEx.norm_context (attnContext attnEx 4 (some 2)))).2) :=
  attention_forward_residual attnEx 4 (some 2) (fun _ => rfl)

/-! ## Repeat combinator (blocks.py lines 41-43 and 111-113)

Instance identity and parameter sharing are modelled with an allocation
counter: a block is an identifier into a parameter store, an un-built template
is a state transformer `counter → block × counter` that constructs one
instance, and `Ts(Sequential)(*ms)` instantiates each template in turn
(`[tp() for tp in types]`). `Repeat(m, times)` duplicates the same reference
`times` times: for a built instance this yields `times` copies of one
identifier, for a template it yields a factory that runs the constructor
`times` times. -/

/-- A block instance: an identifier addressing its parameters in a store. -/
abbrev BlockId : Type := ℕ

/-- `[tp() for tp in types]`: instantiate each template in order, threading the
allocation counter. -/
def instantiateAll : List (ℕ → BlockId × ℕ) → ℕ → List BlockId × ℕ
  | [], n => ([], n)
  | tp :: rest, n =>
    let b := tp n
    let bs := instantiateAll rest b.2
    (b.1 :: bs.1, bs.2)

/-- `Ts(t)`: a zero-argument factory instantiating every template and handing
the list to the container constructor `t` (blocks.py lines 41-43). -/
def Ts {S : Type} (t : List BlockId → S) (types : List (ℕ → BlockId × ℕ)) :
    ℕ → S × ℕ :=
  fun n =>
    let bs := instantiateAll types n
    (t bs.1, bs.2)

/-- `Repeat(m, times)` (blocks.py lines 111-113): `ms = (m,) * times`, then a
built `Sequential` over the same instance if `m` is a module, else
`Ts(Sequential)(*ms)`. The `Sequential` container is represented by its list
of child identifiers. -/
def Repeat : (ℕ → BlockId × ℕ) ⊕ BlockId → ℕ → (ℕ → List BlockId × ℕ) ⊕ List BlockId
  | Sum.inr m, times => Sum.inr (List.replicate times m)
  | Sum.inl m, times => Sum.inl (Ts (fun bs => bs) (List.replicate times m))

theorem instantiateAll_fresh_bounds (ts : List (ℕ → BlockId × ℕ))
    (hfresh : ∀ tp ∈ ts, ∀ n, n ≤ (tp n).1 ∧ (tp n).1 < (tp n).2) :
    ∀ n, (∀ b ∈ (instantiateAll ts n).1, n ≤ b ∧ b < (instantiateAll ts n).2)
      ∧ n ≤ (instantiateAll ts n).2 := by
  induction ts with
  | nil => intro n; exact ⟨by simp [instantiateAll], le_refl n⟩
  | cons tp rest ih =>
    intro n
    have htp := hfresh tp (List.mem_cons_self tp rest) n
    have ihrest := ih (fun t ht n => hfresh t (List.mem_cons_of_mem tp ht) n) (tp n).2
    constructor
    · intro b hb
      simp only [instantiateAll, List.mem_cons] at hb
      rcases hb with hb | hb
      · subst hb
        exact ⟨htp.1, lt_of_lt_of_le htp.2 ihrest.2⟩
      · have := ihrest.1 b hb
        exact ⟨le_trans (le_of_lt (lt_of_le_of_lt htp.1 htp.2)) this.1, this.2⟩
    · exact le_trans (le_of_lt (lt_of_le_of_lt htp.1 htp.2)) ihrest.2

theorem instantiateAll_pairwise (ts : List (ℕ → BlockId × ℕ))
    (hfresh : ∀ tp ∈ ts, ∀ n, n ≤ (tp n).1 ∧ (tp n).1 < (tp n).2) (n : ℕ) :
    List.Pairwise (fun a b => a < b) (instantiateAll ts n).1 := by
  induction ts generalizing n with
  | nil => simp [instantiateAll]
  | cons tp rest ih =>
    have htp := hfresh tp (List.mem_cons_self tp rest) n
    have hrest : ∀ t ∈ rest, ∀ k, k ≤ (t k).1 ∧ (t k).1 < (t k).2 :=
      fun t ht k => hfresh t (List.mem_cons_of_mem tp ht) k
    simp only [instantiateAll, List.pairwise_cons]
    refine ⟨fun b hb => ?_, ih hrest (tp n).2⟩
    have := (instantiateAll_fresh_bounds rest hrest (tp n).2).1 b hb
    exact lt_of_lt_of_le htp.2 this.1

/-- C6: repeating a template whose constructor allocates fresh parameters
yields `times` pairwise-distinct instances, so mutating the parameters of one
position leaves every other position unchanged; repeating an already-built
block yields `times` references to the very same instance, so one parameter
update is observed at every position. -/
theorem repeat_template_vs_instance {P : Type}
    (tpl : ℕ → BlockId × ℕ)
    (hfresh : ∀ n, n ≤ (tpl n).1 ∧ (tpl n).1 < (tpl n).2)
    (times n0 : ℕ) (factory : ℕ → List BlockId × ℕ)
    (hrep : Repeat (Sum.inl tpl) times = Sum.inl factory) :
    (List.Pairwise (fun a b => a ≠ b) (factory n0).1
      ∧ ∀ (store : BlockId → P) (p : P) (i j : ℕ)
          (hi : i < (factory n0).1.length) (hj : j < (factory n0).1.length),
          i ≠ j →
          Function.update store ((factory n0).1.get ⟨i, hi⟩) p ((factory n0).1.get ⟨j, hj⟩)
            = store ((factory n0).1.get ⟨j, hj⟩))
    ∧ ∀ (inst : BlockId) (built : List BlockId),
        Repeat (Sum.inr inst) times = Sum.inr built →
        (∀ b ∈ built, b = inst)
        ∧ ∀ (store : BlockId → P) (p : P) (k : ℕ) (hk : k < built.length),
            Function.update store inst p (built.get ⟨k, hk⟩) = p := by
  have hfactory : factory = Ts (fun bs => bs) (List.replicate times tpl) := by
    simpa [Repeat] using hrep.symm
  have hfreshAll : ∀ tp ∈ List.replicate times tpl,
      ∀ n, n ≤ (tp n).1 ∧ (tp n).1 < (tp n).2 := by
    intro tp htp n
    rw [List.eq_of_mem_replicate htp]
    exact hfresh n
  have hids : (factory n0).1 = (instantiateAll (List.replicate times tpl) n0).1 := by
    rw [hfactory]; rfl
  have hpw : List.Pairwise (fun a b => a < b) (factory n0).1 := by
    rw [hids]
    exact instantiateAll_pairwise _ hfreshAll n0
  refine ⟨⟨hpw.imp (fun h => Nat.ne_of_lt h), ?_⟩, ?_⟩
  · intro store p i j hi hj hij
    have hget : (factory n0).1.get ⟨i, hi⟩ ≠ (factory n0).1.get ⟨j, hj⟩ := by
      have := List.pairwise_iff_get.mp hpw
      rcases Nat.lt_or_ge i j with hlt | hge
      · exact Nat.ne_of_lt (this ⟨i, hi⟩ ⟨j, hj⟩ hlt)
      · have hlt : j < i := Nat.lt_of_le_of_ne hge (fun h => hij h.symm)
        exact (Nat.ne_of_lt (this ⟨j, hj⟩ ⟨i, hi⟩ hlt)).symm
    exact Function.update_noteq (Ne.symm hget) p store
  · intro inst built hrep'
    have hbuilt : built = List.replicate times inst := by
      simpa [Repeat] using hrep'.symm
    subst hbuilt
    refine ⟨fun b hb => List.eq_of_mem_replicate hb, ?_⟩
    intro store p k hk
    have : (List.replicate times inst).get ⟨k, hk⟩ = inst := by simp
    rw [this, Function.update_same]

/-- Witness for C6: the fresh-allocating template repeated 3 times from
counter 0 gives distinct instances 0, 1, 2, while a built instance 5 repeated
3 times shares identifier 5 at every position (parameter store over ℤ). -/
theorem repeat_template_vs_instance_witness :
    ((Ts (fun bs => bs) (List.replicate 3 (fun n => (n, n + 1))) 0).1 = [0, 1, 2]
      ∧ Function.update (fun _ => (0 : ℤ)) ((0 : ℕ)) 9 (1 : ℕ) = 0)
    ∧ ∀ b ∈ List.replicate 3 (5 : ℕ), b = 5 := by
  have h := repeat_template_vs_instance (P := ℤ) (fun n => (n, n + 1))
    (fun n => ⟨le_refl n, Nat.lt_succ_self n⟩) 3 0
    (Ts (fun bs => bs) (List.replicate 3 (fun n => (n, n + 1)))) rfl
  refine ⟨⟨rfl, ?_⟩, fun b hb => ((h.2 5 (List.replicate 3 5) rfl).1) b hb⟩
  exact h.1.2 (fun _ => (0 : ℤ)) 9 0 1 (by decide) (by decide) (by decide)


/-! ## Tabular embedding generator (blocks.py lines 701-787)

Group matrices are lists of rational rows. `__init__` has two branches: with
empty categorical metadata (lines 726-730) it returns early as a pass-through;
any other metadata reaches line 734, which evaluates `np.sum(cat_emb_dims)`,
but blocks.py never imports numpy (its module imports are math, typing, torch,
torch.nn.functional, einops and typing_extensions), so every construction with
a categorical column raises NameError before `post_embed_dim`, the continuity
mask or the rebuilt group matrix exist. Construction is therefore modelled as
returning `some` of the pass-through state or `none` for the NameError. The
forward method (lines 764-787) is modelled in full: the skip branch returns
the input unchanged, and the (in practice unreachable) column loop passes
continuous columns through and embeds categorical columns after truncation
(`.long()`) and a cardinality bounds check, with the random lookup-table
weights an explicit `tables` argument. -/

/-- The attributes of a constructed `TabularDataEmbeddingGenerator`: the skip
flag, the post-embedding dimension, the continuity mask, the
(cardinality, width) pair of each lookup table, and the rebuilt group matrix
(`some` once assigned). -/
structure TabularDataEmbeddingGenerator where
  skip_embedding : Bool
  post_embed_dim : ℤ
  continuous_idx : List Bool
  embeddings : List (ℕ × ℕ)
  embedding_group_matrix : Option (List (List ℚ))

/-- `TabularDataEmbeddingGenerator.__init__` (blocks.py lines 706-762): with
`cat_dims == []` and `cat_idxs == []` the early return of lines 726-730 keeps
the supplied group matrix and marks the block as a pass-through; any other
metadata reaches line 734, whose `np.sum` raises NameError because numpy is
never imported in blocks.py, so the construction fails before any further
attribute exists. -/
def TabularDataEmbeddingGenerator.init (input_dim : ℕ)
    (cat_dims cat_idxs cat_emb_dims : List ℕ) (group_matrix : List (List ℚ)) :
    Option TabularDataEmbeddingGenerator :=
  if cat_dims = [] ∧ cat_idxs = [] then
    some { skip_embedding := true
           post_embed_dim := (input_dim : ℤ)
           continuous_idx := []
           embeddings := []
           embedding_group_matrix := some group_matrix }
  else none

/-- Torch `.long()` on a rational value: truncation toward zero. -/
def toLong (q : ℚ) : ℤ := if 0 ≤ q then ⌊q⌋ else ⌈q⌉

/-- The column loop of `forward` (blocks.py lines 774-784): continuous columns
pass through, categorical columns are looked up in the `cat_feat_counter`-th
table after truncation and a cardinality bounds check; a missing input column
or out-of-range lookup index is an index error. -/
def forwardCols (tables : ℕ → ℤ → List ℚ) :
    List Bool → List ℚ → List (ℕ × ℕ) → ℕ → Option (List ℚ)
  | [], _, _, _ => some []
  | true :: cs, v :: xs, embs, j => (forwardCols tables cs xs embs j).map fun r => v :: r
  | false :: cs, v :: xs, (cd, _) :: embs, j =>
      let t := toLong v
      if 0 ≤ t ∧ t < (cd : ℤ) then
        (forwardCols tables cs xs embs (j + 1)).map fun r => tables j t ++ r
      else none
  | _ :: _, [], _, _ => none
  | false :: _, _ :: _, [], _ => none

/-- `TabularDataEmbeddingGenerator.forward` (blocks.py lines 764-787). -/
def TabularDataEmbeddingGenerator.forward (g : TabularDataEmbeddingGenerator)
    (tables : ℕ → ℤ → List ℚ) (x : List ℚ) : Option (List ℚ) :=
  if g.skip_embedding then some x
  else forwardCols tables g.continuous_idx x g.embeddings 0

/-- C3 (code bug): the construction the claim describes never completes — for
every metadata with at least one categorical column, `__init__` reaches
blocks.py line 734 and raises NameError (`np` is undefined: numpy is never
imported), so neither `post_embed_dim` nor the rebuilt group matrix ever
exists. -/
theorem tabular_categorical_init_name_error (input_dim : ℕ)
    (cat_dims cat_idxs cat_emb_dims : List ℕ) (gm : List (List ℚ))
    (hne : ¬(cat_dims = [] ∧ cat_idxs = [])) :
    TabularDataEmbeddingGenerator.init input_dim cat_dims cat_idxs cat_emb_dims gm
      = none := by
  simp [TabularDataEmbeddingGenerator.init, hne]

/-- Witness for C3 at the concrete failing input: one categorical column of
cardinality 5 and width 3 at position 1 of 3 raw columns. -/
theorem tabular_categorical_init_name_error_witness :
    TabularDataEmbeddingGenerator.init 3 [5] [1] [3] [[2, 6, 4]] = none :=
  tabular_categorical_init_name_error 3 [5] [1] [3] [[2, 6, 4]] (by decide)

/-- C7: with empty categorical metadata the construction succeeds as a
pass-through keeping the supplied group matrix unchanged, and the forward of
the constructed block is the identity on every input. -/
theorem tabular_empty_metadata_passthrough (input_dim : ℕ) (cat_emb_dims : List ℕ)
    (gm : List (List ℚ)) :
    TabularDataEmbeddingGenerator.init input_dim [] [] cat_emb_dims gm
      = some { skip_embedding := true
               post_embed_dim := (input_dim : ℤ)
               continuous_idx := []
               embeddings := []
               embedding_group_matrix := some gm }
    ∧ ∀ (g : TabularDataEmbeddingGenerator) (tables : ℕ → ℤ → List ℚ) (x : List ℚ),
        TabularDataEmbeddingGenerator.init input_dim [] [] cat_emb_dims gm = some g →
        g.forward tables x = some x := by
  have h0 : TabularDataEmbeddingGenerator.init input_dim [] [] cat_emb_dims gm
      = some { skip_embedding := true
               post_embed_dim := (input_dim : ℤ)
               continuous_idx := []
               embeddings := []
               embedding_group_matrix := some gm } := by
    simp [TabularDataEmbeddingGenerator.init]
  refine ⟨h0, ?_⟩
  intro g tables x hg
  rw [h0] at hg
  injection hg with hg
  subst hg
  rfl

/-- Witness for C7 at a concrete generator and a 2-column input. -/
theorem tabular_empty_metadata_passthrough_witness :
    (TabularDataEmbeddingGenerator.init 2 [] [] [] [[1, 1]]).bind
      (fun g => g.forward (fun _ _ => []) [3, 4]) = some [3, 4] := by
  have h := tabular_empty_metadata_passthrough 2 [] [[1, 1]]
  rw [h.1]
  exact h.2 _ (fun _ _ => []) [3, 4] h.1

/-- Counterexample to C8 as stated: a generator built with
`rawColumnCount = 1` — necessarily with empty categorical metadata, the only
metadata whose construction completes — accepts a 2-column input and returns
it unchanged instead of raising. -/
theorem tabular_width_mismatch_counterexample :
    (TabularDataEmbeddingGenerator.init 1 [] [] [] [[1]]).bind
      (fun g => g.forward (fun _ _ => []) [0, 5]) = some [0, 5]
    ∧ ([0, 5] : List ℚ).length ≠ 1 := by
  constructor
  · rfl
  · decide

/-- C8 amended: no input-width check exists — every generator that finishes
construction (necessarily with empty categorical metadata, since any other
construction raises NameError first) has a forward that never raises and
returns its input unchanged whatever the input's column count. -/
theorem tabular_forward_no_width_check (input_dim : ℕ)
    (cat_dims cat_idxs cat_emb_dims : List ℕ) (gm : List (List ℚ))
    (g : TabularDataEmbeddingGenerator)
    (hg : TabularDataEmbeddingGenerator.init input_dim cat_dims cat_idxs cat_emb_dims
      gm = some g)
    (tables : ℕ → ℤ → List ℚ) (x : List ℚ) :
    g.forward tables x = some x := by
  by_cases hc : cat_dims = [] ∧ cat_idxs = []
  · obtain ⟨h1, h2⟩ := hc
    subst h1
    subst h2
    have h0 : TabularDataEmbeddingGenerator.init input_dim [] [] cat_emb_dims gm
        = some { skip_embedding := true
                 post_embed_dim := (input_dim : ℤ)
                 continuous_idx := []
                 embeddings := []
                 embedding_group_matrix := some gm } := by
      simp [TabularDataEmbeddingGenerator.init]
    rw [h0] at hg
    injection hg with hg
    subst hg
    rfl
  · simp [TabularDataEmbeddingGenerator.init, hc] at hg

/-- Witness for the amended C8: the 1-column pass-through generator returns a
2-column input unchanged. -/
theorem tabular_forward_no_width_check_witness :
    TabularDataEmbeddingGenerator.forward
      { skip_embedding := true, post_embed_dim := 1, continuous_idx := [],
        embeddings := [], embedding_group_matrix := some [[1]] }
      (fun _ _ => []) [0, 5] = some [0, 5] :=
  tabular_forward_no_width_check 1 [] [] [] [[1]]
    { skip_embedding := true, post_embed_dim := 1, continuous_idx := [],
      embeddings := [], embedding_group_matrix := some [[1]] }
    rfl (fun _ _ => []) [0, 5]

end AUnet
